import Mathlib

/-!
Shallow embedding of the analytics aggregation engine of
src/backend/services/analytics_service/main.py.

Modelling conventions:
* ISO-8601 timestamp strings are order-isomorphic to instants; we model an
  instant as a natural number of seconds.  A stored timestamp always parses;
  a caller-supplied filter date is modelled by DateStr, which is either a
  well-formed encoding of an instant or malformed (fromisoformat raises on
  the latter).
* datetime.utcnow() is modelled by a clock field in the service state; every
  operation takes a nonnegative elapsed time, so the clock is monotone.
* uuid.uuid4() is modelled by a fresh-counter field: each issued id is the
  current counter value, rendered as the string eventIdStr.
* Python numbers are modelled by PyNum (int over Int, float over Rat);
  float arithmetic is modelled exactly over the rationals.
* Python dicts used as records become structures; a missing optional key
  becomes an Option that is none.  collections.Counter and the defaultdicts
  become association lists in first-occurrence order.
* statistics.stdev returns the square root of the Bessel-corrected sample
  variance; since that root is irrational in general, the stats record holds
  the variance itself in the field std_dev_sq (the square of std_dev).
-/


/-- Python numeric value: an int or a float (floats modelled exactly as
rationals). -/
inductive PyNum where
  | int : Int → PyNum
  | float : ℚ → PyNum
deriving DecidableEq, Repr

/-- Numeric value of a Python number. -/
def pyToRat : PyNum → ℚ
  | .int i => (i : ℚ)
  | .float q => q

/-- Python addition: int + int is an int, any float operand promotes the
result to float. -/
def pyAdd : PyNum → PyNum → PyNum
  | .int a, .int b => .int (a + b)
  | a, b => .float (pyToRat a + pyToRat b)

/-- Python builtin sum over a list of numbers (start value is the int 0). -/
def pySum (l : List PyNum) : PyNum := l.foldl pyAdd (.int 0)

/-- Python builtin min over a nonempty list: keeps the earliest minimal
element (replaces the accumulator only on strict decrease). -/
def pyMinNE (a : PyNum) (l : List PyNum) : PyNum :=
  l.foldl (fun acc y => if pyToRat y < pyToRat acc then y else acc) a

/-- Python builtin max over a nonempty list: keeps the earliest maximal
element. -/
def pyMaxNE (a : PyNum) (l : List PyNum) : PyNum :=
  l.foldl (fun acc y => if pyToRat acc < pyToRat y then y else acc) a

/-- True exactly on ints. -/
def PyNum.isInt : PyNum → Bool
  | .int _ => true
  | .float _ => false

/-- The open key/value bags (properties, tags): modelled as association
lists from strings to strings. -/
abbrev Props := List (String × String)

/-- A caller-supplied timestamp string: either a well-formed ISO encoding of
an instant, or malformed. -/
inductive DateStr where
  | valid : Nat → DateStr
  | malformed : DateStr
deriving DecidableEq, Repr

/-- datetime.fromisoformat on a caller-supplied string: yields the encoded
instant, or raises (ValueError) on a malformed string. -/
def parseISO : DateStr → Except String Nat
  | .valid t => .ok t
  | .malformed => .error "Invalid isoformat string"

/-- A stored analytics event (the dict built in track_event).  The uuid id
is eventIdStr idNum where idNum is the issuing counter value. -/
structure Event where
  idNum : Nat
  event_name : String
  user_id : String
  properties : Props
  timestamp : Nat
  session_id : Option String
  device_type : String
  platform : String
deriving DecidableEq, Repr

/-- String form of an issued event id (models str(uuid.uuid4())). -/
def eventIdStr (n : Nat) : String := String.append "uuid-" (Nat.repr n)

/-- A stored metric sample (the dict built in record_metric). -/
structure Metric where
  metric_name : String
  value : PyNum
  timestamp : Nat
  tags : Props
  unit : String
deriving DecidableEq, Repr

/-- The service state: the append-only event list, the defaultdict(list)
from metric name to samples, the uuid freshness counter and the clock. -/
structure ServiceState where
  events : List Event
  metrics : List (String × List Metric)
  counter : Nat
  now : Nat
deriving DecidableEq, Repr

/-- The fresh service state (AnalyticsService.__init__) at clock t. -/
def initState (t : Nat) : ServiceState := ⟨[], [], 0, t⟩

/-- Lookup in the metrics mapping (the membership test
metric_name in self.metrics together with plain indexing on a hit). -/
def lookupDD (m : List (String × List Metric)) (k : String) :
    Option (List Metric) :=
  (m.find? (fun p => p.1 == k)).map (fun p => p.2)

/-- defaultdict(list) indexing: returns the stored list, inserting an empty
entry for the key when absent (the Python side effect of
self.metrics[name]). -/
def ddAccess (m : List (String × List Metric)) (k : String) :
    List Metric × List (String × List Metric) :=
  match m.find? (fun p => p.1 == k) with
  | some p => (p.2, m)
  | none => ([], m ++ [(k, [])])

/-- Replace the value stored under a key (the effect of mutating the list
obtained from the defaultdict). -/
def ddSet (m : List (String × List Metric)) (k : String)
    (v : List Metric) : List (String × List Metric) :=
  m.map (fun p => if p.1 == k then (p.1, v) else p)

/-- Body of an HTTP-style response: the success payload or the error
message. -/
inductive Body (α : Type) where
  | ok : α → Body α
  | err : String → Body α
deriving DecidableEq, Repr

/-- HTTP-style response: statusCode plus body. -/
structure Resp (α : Type) where
  statusCode : Nat
  body : Body α
deriving DecidableEq, Repr

/-- Success payload of a response body, when present. -/
def bodyOk? {α : Type} : Body α → Option α
  | .ok a => some a
  | .err _ => none

/-- Caller input to track_event: each optional dict key is an Option. -/
structure EventData where
  event_name : Option String
  user_id : Option String
  properties : Option Props
  session_id : Option String
  device_type : Option String
  platform : Option String
deriving DecidableEq, Repr

/-- AnalyticsService.track_event: validates the required keys, builds the
event with its defaults, appends it to the store and returns the id; any
failure is returned as a 400 with the store untouched. -/
def track_event (s : ServiceState) (d : EventData) (δ : Nat) :
    Resp String × ServiceState :=
  let now := s.now + δ
  let s1 := { s with now := now }
  match d.event_name with
  | none => (⟨400, .err "Missing required field: event_name"⟩, s1)
  | some en =>
    match d.user_id with
    | none => (⟨400, .err "Missing required field: user_id"⟩, s1)
    | some uid =>
      let ev : Event :=
        { idNum := s.counter
          event_name := en
          user_id := uid
          properties := d.properties.getD []
          timestamp := now
          session_id := d.session_id
          device_type := d.device_type.getD "unknown"
          platform := d.platform.getD "unknown" }
      (⟨200, .ok (eventIdStr s.counter)⟩,
        { s1 with events := s.events ++ [ev], counter := s.counter + 1 })

/-- Caller input to record_metric.  The value key, when present, is an int,
a float, or something float() rejects. -/
inductive MetricValue where
  | int : Int → MetricValue
  | float : ℚ → MetricValue
  | nonNumeric : MetricValue
deriving DecidableEq, Repr

/-- Python float() applied to the caller-supplied value: coerces numbers,
raises ValueError otherwise. -/
def pyFloatCoe : MetricValue → Except String ℚ
  | .int i => .ok (i : ℚ)
  | .float q => .ok q
  | .nonNumeric => .error "could not convert value to float"

/-- Caller input to record_metric. -/
structure MetricData where
  metric_name : Option String
  value : Option MetricValue
  tags : Option Props
  unit : Option String
deriving DecidableEq, Repr

/-- AnalyticsService.record_metric: validates the required keys, coerces the
value with float(), then appends the sample to the per-name defaultdict
entry; any failure is a 400 with the store untouched. -/
def record_metric (s : ServiceState) (d : MetricData) (δ : Nat) :
    Resp Metric × ServiceState :=
  let now := s.now + δ
  let s1 := { s with now := now }
  match d.metric_name with
  | none => (⟨400, .err "Missing required field: metric_name"⟩, s1)
  | some name =>
    match d.value with
    | none => (⟨400, .err "Missing required field: value"⟩, s1)
    | some v =>
      match pyFloatCoe v with
      | .error msg => (⟨400, .err msg⟩, s1)
      | .ok q =>
        let metric : Metric :=
          { metric_name := name
            value := .float q
            timestamp := now
            tags := d.tags.getD []
            unit := d.unit.getD "count" }
        let acc := ddAccess s.metrics name
        (⟨200, .ok metric⟩,
          { s1 with metrics := ddSet acc.2 name (acc.1 ++ [metric]) })

/-- Caller-supplied filter criteria for get_event_analytics: each
recognized key is an Option (none when the key is absent). -/
structure Filters where
  event_name : Option String
  user_id : Option String
  date_from : Option DateStr
  date_to : Option DateStr
deriving DecidableEq, Repr

/-- Truthiness of the filters dict: a missing or empty dict is falsy. -/
def Filters.isEmpty (f : Filters) : Bool :=
  f.event_name.isNone && f.user_id.isNone &&
    f.date_from.isNone && f.date_to.isNone

/-- The filters dict with no recognized key. -/
def emptyFilters : Filters := ⟨none, none, none, none⟩

/-- The sequential filter block in get_event_analytics: exact-match filters
for event_name and user_id, then the inclusive date bounds, whose ISO
parsing can raise (the raise propagates out of the block). -/
def applyFilters (f : Filters) (events : List Event) :
    Except String (List Event) :=
  let es1 :=
    match f.event_name with
    | some n => events.filter (fun e => e.event_name == n)
    | none => events
  let es2 :=
    match f.user_id with
    | some u => es1.filter (fun e => e.user_id == u)
    | none => es1
  match f.date_from with
  | some d =>
    match parseISO d with
    | .error msg => .error msg
    | .ok tfrom =>
      let es3 := es2.filter (fun e => decide (tfrom ≤ e.timestamp))
      match f.date_to with
      | some d2 =>
        match parseISO d2 with
        | .error msg => .error msg
        | .ok tto => .ok (es3.filter (fun e => decide (e.timestamp ≤ tto)))
      | none => .ok es3
  | none =>
    match f.date_to with
    | some d2 =>
      match parseISO d2 with
      | .error msg => .error msg
      | .ok tto => .ok (es2.filter (fun e => decide (e.timestamp ≤ tto)))
    | none => .ok es2

/-- The filter stage of get_event_analytics including the truthiness guard:
an absent or empty filters dict leaves the event list untouched. -/
def filteredEvents (f : Filters) (events : List Event) :
    Except String (List Event) :=
  if f.isEmpty then .ok events else applyFilters f events

/-- Keys of a list in first-occurrence order, each once. -/
def dedupFirst {α : Type} [DecidableEq α] : List α → List α
  | [] => []
  | x :: xs => x :: dedupFirst (xs.filter (fun y => decide (y ≠ x)))
termination_by l => l.length
decreasing_by
  simp only [List.length_cons]
  exact Nat.lt_succ_of_le (List.length_filter_le _ _)

/-- collections.Counter as an association list in first-occurrence order. -/
def counterList {α : Type} [DecidableEq α] (l : List α) : List (α × Nat) :=
  (dedupFirst l).map (fun k => (k, l.count k))

/-- The analytics payload assembled by get_event_analytics. -/
structure Analytics where
  total_events : Nat
  unique_users : Nat
  event_counts : List (String × Nat)
  device_distribution : List (String × Nat)
  platform_distribution : List (String × Nat)
  hourly_events_24h : List (Nat × Nat)
  filters_applied : Filters
  generated_at : Nat
deriving DecidableEq, Repr

/-- The aggregation body of get_event_analytics over the filtered events:
counts, distinct users, Counter distributions and the trailing-24-hour
hourly buckets (the hour bucket of instant t is t / 3600). -/
def computeAnalytics (now : Nat) (f : Filters) (es : List Event) :
    Analytics :=
  { total_events := es.length
    unique_users := (es.map (fun e => e.user_id)).dedup.length
    event_counts := counterList (es.map (fun e => e.event_name))
    device_distribution := counterList (es.map (fun e => e.device_type))
    platform_distribution := counterList (es.map (fun e => e.platform))
    hourly_events_24h :=
      counterList
        ((es.filter (fun e => decide (now - e.timestamp ≤ 86400))).map
          (fun e => e.timestamp / 3600))
    filters_applied := f
    generated_at := now }

/-- AnalyticsService.get_event_analytics: filters the store, aggregates, and
returns 200; any exception in the body (in particular a malformed filter
date) is caught and returned as a 500. -/
def get_event_analytics (s : ServiceState) (δ : Nat) (f : Filters) :
    Resp Analytics × ServiceState :=
  let now := s.now + δ
  let s1 := { s with now := now }
  match filteredEvents f s.events with
  | .error msg => (⟨500, .err msg⟩, s1)
  | .ok es => (⟨200, .ok (computeAnalytics now f es)⟩, s1)

/-- The user analytics payload assembled by get_user_analytics.  Weekday of
instant t is modelled as (t / 86400) % 7 (day 0 of the epoch has weekday
index 0). -/
structure UserAnalytics where
  user_id : String
  total_events : Nat
  total_sessions : Nat
  event_counts : List (String × Nat)
  first_activity : Nat
  last_activity : Nat
  devices_used : List String
  platforms_used : List String
  activity_by_day : List (Nat × Nat)
  generated_at : Nat
deriving DecidableEq, Repr

/-- AnalyticsService.get_user_analytics: selects the events of the user,
404 when none, otherwise builds the per-user profile.  Sessions count only
truthy session ids (None and the empty string are skipped). -/
def get_user_analytics (s : ServiceState) (δ : Nat) (uid : String) :
    Resp UserAnalytics × ServiceState :=
  let now := s.now + δ
  let s1 := { s with now := now }
  match s.events.filter (fun e => e.user_id == uid) with
  | [] => (⟨404, .err "No events found for user"⟩, s1)
  | e0 :: rest =>
    let user_events := e0 :: rest
    let timestamps := user_events.map (fun e => e.timestamp)
    let ua : UserAnalytics :=
      { user_id := uid
        total_events := user_events.length
        total_sessions :=
          ((user_events.filterMap (fun e => e.session_id)).filter
            (fun sid => sid != "")).dedup.length
        event_counts := counterList (user_events.map (fun e => e.event_name))
        first_activity := (rest.map (fun e => e.timestamp)).foldl min e0.timestamp
        last_activity := (rest.map (fun e => e.timestamp)).foldl max e0.timestamp
        devices_used := (user_events.map (fun e => e.device_type)).dedup
        platforms_used := (user_events.map (fun e => e.platform)).dedup
        activity_by_day :=
          counterList (timestamps.map (fun t => (t / 86400) % 7))
        generated_at := now }
    (⟨200, .ok ua⟩, s1)

/-- statistics.mean over the (exact) numeric values. -/
def meanQ (rs : List ℚ) : ℚ := rs.sum / (rs.length : ℚ)

/-- statistics.median: sort, take the middle element for odd length, the
average of the two middle elements for even length. -/
def medianQ (rs : List ℚ) : ℚ :=
  let sorted := rs.insertionSort (fun a b => a ≤ b)
  let n := sorted.length
  if n % 2 = 1 then sorted.getD (n / 2) 0
  else (sorted.getD (n / 2 - 1) 0 + sorted.getD (n / 2) 0) / 2

/-- Square of statistics.stdev: the Bessel-corrected sample variance, sum of
squared deviations from the mean divided by n - 1. -/
def sampleVarQ (rs : List ℚ) : ℚ :=
  ((rs.map (fun x => (x - meanQ rs) ^ 2)).sum) / ((rs.length - 1 : ℕ) : ℚ)

/-- The metric statistics payload assembled by get_metric_stats; std_dev_sq
holds the square of the reported std_dev, present only when count > 1. -/
structure MetricStats where
  metric_name : String
  count : Nat
  min : PyNum
  max : PyNum
  mean : ℚ
  median : ℚ
  sum : PyNum
  std_dev_sq : Option ℚ
  generated_at : Nat
deriving DecidableEq, Repr

/-- AnalyticsService.get_metric_stats: membership test on the metric store
(404 when absent), defaultdict access on a hit, an emptiness guard on the
value list (404), then the summary statistics with std_dev only for more
than one sample. -/
def get_metric_stats (s : ServiceState) (δ : Nat) (name : String) :
    Resp MetricStats × ServiceState :=
  let now := s.now + δ
  let s1 := { s with now := now }
  match lookupDD s.metrics name with
  | none => (⟨404, .err "Metric not found"⟩, s1)
  | some _ =>
    let acc := ddAccess s.metrics name
    let s2 := { s1 with metrics := acc.2 }
    match acc.1.map (fun m => m.value) with
    | [] => (⟨404, .err "No data points for metric"⟩, s2)
    | v :: vs =>
      let values := v :: vs
      let rs := values.map pyToRat
      let stats : MetricStats :=
        { metric_name := name
          count := values.length
          min := pyMinNE v vs
          max := pyMaxNE v vs
          mean := meanQ rs
          median := medianQ rs
          sum := pySum values
          std_dev_sq :=
            if 1 < values.length then some (sampleVarQ rs) else none
          generated_at := now }
      (⟨200, .ok stats⟩, s2)

/-- Reachable service states: the fresh state at any clock, closed under the
five service operations at any input and elapsed time. -/
inductive Reachable : ServiceState → Prop where
  | init (t : Nat) : Reachable (initState t)
  | track (s : ServiceState) (d : EventData) (δ : Nat) :
      Reachable s → Reachable (track_event s d δ).2
  | record (s : ServiceState) (d : MetricData) (δ : Nat) :
      Reachable s → Reachable (record_metric s d δ).2
  | qEvents (s : ServiceState) (δ : Nat) (f : Filters) :
      Reachable s → Reachable (get_event_analytics s δ f).2
  | qUser (s : ServiceState) (δ : Nat) (u : String) :
      Reachable s → Reachable (get_user_analytics s δ u).2
  | qStats (s : ServiceState) (δ : Nat) (m : String) :
      Reachable s → Reachable (get_metric_stats s δ m).2

/-- The metric-store invariant: every stored sample value is a float
(record_metric passes every value through float()). -/
def MetricsAllFloat (s : ServiceState) : Prop :=
  ∀ p ∈ s.metrics, ∀ mt ∈ p.2, mt.value.isInt = false

/-- The event-store invariant: event ids are the issuing counter values in
strictly increasing order (so each id is fresh), every issued id is below
the current counter, and timestamps are monotone and bounded by the
clock. -/
def EventsInv (s : ServiceState) : Prop :=
  s.events.Pairwise (fun a b => a.idNum < b.idNum) ∧
  s.events.Pairwise (fun a b => a.timestamp ≤ b.timestamp) ∧
  ∀ e ∈ s.events, e.idNum < s.counter ∧ e.timestamp ≤ s.now

/-- Spec-side reading of the event_name / user_id criterion: an omitted
criterion imposes no constraint. -/
def matchOptStr (o : Option String) (x : String) : Bool :=
  match o with
  | some v => x == v
  | none => true

/-- Spec-side reading of the date_from criterion (inclusive lower bound);
omitted imposes no constraint. -/
def afterOpt (o : Option Nat) (t : Nat) : Bool :=
  match o with
  | some b => decide (b ≤ t)
  | none => true

/-- Spec-side reading of the date_to criterion (inclusive upper bound);
omitted imposes no constraint. -/
def beforeOpt (o : Option Nat) (t : Nat) : Bool :=
  match o with
  | some b => decide (t ≤ b)
  | none => true

/-- Record one integer response_time sample (the metric-recording step of
the spec scenario). -/
def recStep (st : ServiceState) (v : Int) : ServiceState :=
  (record_metric st ⟨some "response_time", some (.int v), none, none⟩ 0).2

/-- Store state after recording the integer samples 100, 200, 300, 400, 500
under response_time (the spec scenario). -/
def demoState1 : ServiceState :=
  recStep (recStep (recStep (recStep (recStep (initState 0) 100) 200) 300) 400) 500

/-- The samples stored in demoState1. -/
def demoMetrics1 : List Metric :=
  [⟨"response_time", .float 100, 0, [], "count"⟩,
   ⟨"response_time", .float 200, 0, [], "count"⟩,
   ⟨"response_time", .float 300, 0, [], "count"⟩,
   ⟨"response_time", .float 400, 0, [], "count"⟩,
   ⟨"response_time", .float 500, 0, [], "count"⟩]

/-- Demo ingest input for the C3 witness. -/
def demoTrackData : EventData := ⟨some "login", some "u1", none, none, none, none⟩

/-- Store state after one successful ingest, for the C3 witness. -/
def demoState2 : ServiceState := (track_event (initState 0) demoTrackData 0).2

/-! Lemmas and theorems. -/

lemma eventIdStr_ne_empty (n : Nat) : eventIdStr n ≠ "" := by
  intro h
  have h2 : (eventIdStr n).data = ("" : String).data := by rw [h]
  simp [eventIdStr, String.append] at h2

lemma ddAccess_snd_of_found (m : List (String × List Metric)) (k : String)
    (h : (m.find? (fun p => p.1 == k)).isSome) : (ddAccess m k).2 = m := by
  unfold ddAccess
  cases hf : m.find? (fun p => p.1 == k) with
  | none => rw [hf] at h; simp at h
  | some p => simp

lemma ddAccess_of_lookup (m : List (String × List Metric)) (k : String)
    (ms : List Metric) (h : lookupDD m k = some ms) : ddAccess m k = (ms, m) := by
  unfold lookupDD at h
  unfold ddAccess
  cases hf : m.find? (fun p => p.1 == k) with
  | none => rw [hf] at h; simp at h
  | some p => rw [hf] at h; simp at h; simp [h]

lemma gea_state (s : ServiceState) (δ : Nat) (f : Filters) :
    (get_event_analytics s δ f).2 = { s with now := s.now + δ } := by
  unfold get_event_analytics
  cases h : filteredEvents f s.events <;> simp

lemma gua_state (s : ServiceState) (δ : Nat) (u : String) :
    (get_user_analytics s δ u).2 = { s with now := s.now + δ } := by
  unfold get_user_analytics
  cases h : s.events.filter (fun e => e.user_id == u) <;> simp

lemma gms_state (s : ServiceState) (δ : Nat) (m : String) :
    (get_metric_stats s δ m).2 = { s with now := s.now + δ } := by
  unfold get_metric_stats
  cases h : lookupDD s.metrics m with
  | none => simp
  | some ms =>
    have hacc : ddAccess s.metrics m = (ms, s.metrics) :=
      ddAccess_of_lookup _ _ _ h
    simp only [hacc]
    cases hv : ms.map (fun mt => mt.value) <;> simp

lemma pyMinNE_mem (l : List PyNum) (a : PyNum) :
    pyMinNE a l = a ∨ pyMinNE a l ∈ l := by
  induction l generalizing a with
  | nil => left; rfl
  | cons x xs ih =>
    unfold pyMinNE
    simp only [List.foldl_cons]
    rcases ih (if pyToRat x < pyToRat a then x else a) with h | h
    · rw [pyMinNE] at h
      rw [h]
      split
      · right; exact List.mem_cons_self _ _
      · left; rfl
    · right
      rw [pyMinNE] at h
      exact List.mem_cons_of_mem _ h

lemma pyMinNE_le (l : List PyNum) (a : PyNum) :
    pyToRat (pyMinNE a l) ≤ pyToRat a ∧
      ∀ y ∈ l, pyToRat (pyMinNE a l) ≤ pyToRat y := by
  induction l generalizing a with
  | nil => exact ⟨le_refl _, by intro y hy; simp at hy⟩
  | cons x xs ih =>
    unfold pyMinNE
    simp only [List.foldl_cons]
    have h := ih (if pyToRat x < pyToRat a then x else a)
    rw [pyMinNE] at h
    have hba : pyToRat (if pyToRat x < pyToRat a then x else a) ≤ pyToRat a := by
      split
      · next hlt => exact le_of_lt hlt
      · exact le_refl _
    have hbx : pyToRat (if pyToRat x < pyToRat a then x else a) ≤ pyToRat x := by
      split
      · exact le_refl _
      · next hge => exact le_of_not_lt hge
    refine ⟨le_trans h.1 hba, ?_⟩
    intro y hy
    rcases List.mem_cons.mp hy with rfl | hmem
    · exact le_trans h.1 hbx
    · exact h.2 y hmem

lemma pyMaxNE_mem (l : List PyNum) (a : PyNum) :
    pyMaxNE a l = a ∨ pyMaxNE a l ∈ l := by
  induction l generalizing a with
  | nil => left; rfl
  | cons x xs ih =>
    unfold pyMaxNE
    simp only [List.foldl_cons]
    rcases ih (if pyToRat a < pyToRat x then x else a) with h | h
    · rw [pyMaxNE] at h
      rw [h]
      split
      · right; exact List.mem_cons_self _ _
      · left; rfl
    · right
      rw [pyMaxNE] at h
      exact List.mem_cons_of_mem _ h

lemma pyMaxNE_ge (l : List PyNum) (a : PyNum) :
    pyToRat a ≤ pyToRat (pyMaxNE a l) ∧
      ∀ y ∈ l, pyToRat y ≤ pyToRat (pyMaxNE a l) := by
  induction l generalizing a with
  | nil => exact ⟨le_refl _, by intro y hy; simp at hy⟩
  | cons x xs ih =>
    unfold pyMaxNE
    simp only [List.foldl_cons]
    have h := ih (if pyToRat a < pyToRat x then x else a)
    rw [pyMaxNE] at h
    have hba : pyToRat a ≤ pyToRat (if pyToRat a < pyToRat x then x else a) := by
      split
      · next hlt => exact le_of_lt hlt
      · exact le_refl _
    have hbx : pyToRat x ≤ pyToRat (if pyToRat a < pyToRat x then x else a) := by
      split
      · exact le_refl _
      · next hge => exact le_of_not_lt hge
    refine ⟨le_trans hba h.1, ?_⟩
    intro y hy
    rcases List.mem_cons.mp hy with rfl | hmem
    · exact le_trans hbx h.1
    · exact h.2 y hmem

lemma pyToRat_pyAdd (a b : PyNum) :
    pyToRat (pyAdd a b) = pyToRat a + pyToRat b := by
  cases a <;> cases b <;> simp [pyAdd, pyToRat]

lemma pyToRat_foldl_pyAdd (l : List PyNum) (a : PyNum) :
    pyToRat (l.foldl pyAdd a) = pyToRat a + (l.map pyToRat).sum := by
  induction l generalizing a with
  | nil => simp
  | cons x xs ih =>
    simp only [List.foldl_cons, List.map_cons, List.sum_cons, ih,
      pyToRat_pyAdd]
    ring

lemma pyToRat_pySum (l : List PyNum) :
    pyToRat (pySum l) = (l.map pyToRat).sum := by
  unfold pySum
  rw [pyToRat_foldl_pyAdd]
  simp [pyToRat]

lemma pyAdd_isInt_false (a b : PyNum) (h : a.isInt = false) :
    (pyAdd a b).isInt = false := by
  cases a with
  | int i => simp [PyNum.isInt] at h
  | float q => cases b <;> simp [pyAdd, PyNum.isInt]

lemma foldl_pyAdd_isInt_false (l : List PyNum) (a : PyNum)
    (h : a.isInt = false) : (l.foldl pyAdd a).isInt = false := by
  induction l generalizing a with
  | nil => exact h
  | cons x xs ih =>
    simp only [List.foldl_cons]
    exact ih _ (pyAdd_isInt_false _ _ h)

lemma pySum_isInt_false (v : PyNum) (vs : List PyNum)
    (h : v.isInt = false) : (pySum (v :: vs)).isInt = false := by
  unfold pySum
  simp only [List.foldl_cons]
  apply foldl_pyAdd_isInt_false
  cases v with
  | int i => simp [PyNum.isInt] at h
  | float q => simp [pyAdd, PyNum.isInt]

lemma ddSet_mem (m : List (String × List Metric)) (k : String)
    (v : List Metric) (q : String × List Metric) (hq : q ∈ ddSet m k v) :
    q.2 = v ∨ q ∈ m := by
  unfold ddSet at hq
  rcases List.mem_map.mp hq with ⟨p, hp, hpq⟩
  by_cases hk : p.1 == k
  · left; rw [hk] at hpq; simp at hpq; rw [← hpq]
  · right
    simp only [hk] at hpq
    simp at hpq
    rw [← hpq]; exact hp

lemma ddAccess_fst_sub (m : List (String × List Metric)) (k : String) :
    (∀ p ∈ m, ∀ mt ∈ p.2, mt.value.isInt = false) →
      ∀ mt ∈ (ddAccess m k).1, mt.value.isInt = false := by
  intro hm mt hmt
  unfold ddAccess at hmt
  cases hf : m.find? (fun p => p.1 == k) with
  | none => rw [hf] at hmt; simp at hmt
  | some p =>
    rw [hf] at hmt
    simp at hmt
    exact hm p (List.mem_of_find?_eq_some hf) mt hmt

lemma ddAccess_snd_sub (m : List (String × List Metric)) (k : String)
    (q : String × List Metric) (hq : q ∈ (ddAccess m k).2) :
    q ∈ m ∨ q.2 = [] := by
  unfold ddAccess at hq
  cases hf : m.find? (fun p => p.1 == k) with
  | none =>
    rw [hf] at hq
    simp only [List.mem_append, List.mem_singleton] at hq
    rcases hq with h | h
    · left; exact h
    · right; rw [h]
  | some p => rw [hf] at hq; left; exact hq

lemma reachable_metricsAllFloat (s : ServiceState) (h : Reachable s) :
    MetricsAllFloat s := by
  induction h with
  | init t => intro p hp; simp [initState] at hp
  | track s d δ _ ih =>
    obtain ⟨den, duid, dprops, dsess, ddev, dplat⟩ := d
    intro p hp
    rcases den with _ | en
    · exact ih p hp
    · rcases duid with _ | uid
      · exact ih p hp
      · exact ih p hp
  | record s d δ _ ih =>
    obtain ⟨dname, dval, dtags, dunit⟩ := d
    intro p hp
    rcases dname with _ | name
    · exact ih p hp
    · rcases dval with _ | v
      · exact ih p hp
      · rcases hv : pyFloatCoe v with msg | q
        · simp only [record_metric, hv] at hp
          exact ih p hp
        · simp only [record_metric, hv] at hp
          rcases ddSet_mem _ _ _ _ hp with h2 | h2
          · intro mt hmt
            rw [h2] at hmt
            rcases List.mem_append.mp hmt with h3 | h3
            · exact ddAccess_fst_sub s.metrics name ih mt h3
            · rcases List.mem_singleton.mp h3 with rfl
              simp [PyNum.isInt]
          · rcases ddAccess_snd_sub _ _ _ h2 with h3 | h3
            · exact ih p h3
            · intro mt hmt; rw [h3] at hmt; simp at hmt
  | qEvents s δ f _ ih =>
    intro p hp
    rw [gea_state] at hp
    exact ih p hp
  | qUser s δ u _ ih =>
    intro p hp
    rw [gua_state] at hp
    exact ih p hp
  | qStats s δ m _ ih =>
    intro p hp
    rw [gms_state] at hp
    exact ih p hp

lemma eventsInv_clock_mono (s : ServiceState) (δ : Nat) (h : EventsInv s) :
    EventsInv { s with now := s.now + δ } := by
  refine ⟨h.1, h.2.1, ?_⟩
  intro e he
  exact ⟨(h.2.2 e he).1, le_trans (h.2.2 e he).2 (Nat.le_add_right _ _)⟩

lemma reachable_eventsInv (s : ServiceState) (h : Reachable s) :
    EventsInv s := by
  induction h with
  | init t => exact ⟨by simp [initState], by simp [initState], by simp [initState]⟩
  | track s d δ _ ih =>
    obtain ⟨den, duid, dprops, dsess, ddev, dplat⟩ := d
    rcases den with _ | en
    · exact eventsInv_clock_mono s δ ih
    · rcases duid with _ | uid
      · exact eventsInv_clock_mono s δ ih
      · simp only [track_event]
        constructor
        · rw [List.pairwise_append]
          refine ⟨ih.1, List.pairwise_singleton _ _, ?_⟩
          intro a ha b hb
          rcases List.mem_singleton.mp hb with rfl
          exact (ih.2.2 a ha).1
        constructor
        · rw [List.pairwise_append]
          refine ⟨ih.2.1, List.pairwise_singleton _ _, ?_⟩
          intro a ha b hb
          rcases List.mem_singleton.mp hb with rfl
          exact le_trans (ih.2.2 a ha).2 (Nat.le_add_right _ _)
        · intro e he
          rcases List.mem_append.mp he with h2 | h2
          · exact ⟨Nat.lt_succ_of_lt (ih.2.2 e h2).1,
              le_trans (ih.2.2 e h2).2 (Nat.le_add_right _ _)⟩
          · rcases List.mem_singleton.mp h2 with rfl
            exact ⟨Nat.lt_succ_self _, le_refl _⟩
  | record s d δ _ ih =>
    obtain ⟨dname, dval, dtags, dunit⟩ := d
    rcases dname with _ | name
    · exact eventsInv_clock_mono s δ ih
    · rcases dval with _ | v
      · exact eventsInv_clock_mono s δ ih
      · rcases hv : pyFloatCoe v with msg | q
        · simp only [record_metric, hv]
          exact eventsInv_clock_mono s δ ih
        · simp only [record_metric, hv]
          exact eventsInv_clock_mono s δ ih
  | qEvents s δ f _ ih =>
    rw [gea_state]
    exact eventsInv_clock_mono s δ ih
  | qUser s δ u _ ih =>
    rw [gua_state]
    exact eventsInv_clock_mono s δ ih
  | qStats s δ m _ ih =>
    rw [gms_state]
    exact eventsInv_clock_mono s δ ih

lemma applyFilters_valid_and (en ui : Option String) (tf tt : Option Nat)
    (events : List Event) :
    applyFilters ⟨en, ui, Option.map DateStr.valid tf,
        Option.map DateStr.valid tt⟩ events =
      .ok (events.filter (fun e =>
        matchOptStr en e.event_name && matchOptStr ui e.user_id &&
        afterOpt tf e.timestamp && beforeOpt tt e.timestamp)) := by
  rcases en with _ | n <;> rcases ui with _ | u <;>
    rcases tf with _ | t1 <;> rcases tt with _ | t2 <;>
    simp [applyFilters, parseISO, matchOptStr, afterOpt, beforeOpt,
      List.filter_filter] <;>
    (apply List.filter_congr; intro e he;
      simp [Bool.and_comm, Bool.and_left_comm, Bool.and_assoc])

lemma lookupDD_ddSet_self (m : List (String × List Metric)) (k : String)
    (v : List Metric) (h : (m.find? (fun p => p.1 == k)).isSome) :
    lookupDD (ddSet m k v) k = some v := by
  induction m with
  | nil => simp at h
  | cons q rest ih =>
    cases hq : (q.1 == k) with
    | true =>
      have hqe : q.1 = k := by simpa using hq
      have hset : ddSet (q :: rest) k v =
          (q.1, v) :: (rest.map (fun p => if (p.1 == k) = true then (p.1, v) else p)) := by
        simp [ddSet, hqe]
      rw [lookupDD, hset]
      rw [@List.find?_cons_of_pos _ (fun p => p.1 == k) (q.1, v) _ (by simpa using hq)]
      rfl
    | false =>
      have hne : ¬((fun p => p.1 == k) q = true) := by simp [hq]
      have h2 : (rest.find? (fun p => p.1 == k)).isSome := by
        rw [@List.find?_cons_of_neg _ (fun p => p.1 == k) q rest hne] at h
        exact h
      simp only [lookupDD, ddSet, List.map_cons, hq, Bool.false_eq_true, if_false]
      rw [@List.find?_cons_of_neg _ (fun p => p.1 == k) q _ hne]
      exact ih h2

lemma ddAccess_fst_lookup (m : List (String × List Metric)) (k : String) :
    (ddAccess m k).1 = (lookupDD m k).getD [] := by
  unfold ddAccess lookupDD
  cases hf : m.find? (fun p => p.1 == k) <;> simp

lemma ddAccess_snd_isSome (m : List (String × List Metric)) (k : String) :
    ((ddAccess m k).2.find? (fun p => p.1 == k)).isSome := by
  unfold ddAccess
  cases hf : m.find? (fun p => p.1 == k) with
  | none => simp [List.find?_append, hf]
  | some p => simp [hf]

/-- C10: the query operations get_event_analytics, get_user_analytics and
get_metric_stats leave both stores exactly unchanged for every input
(in particular, querying stats for a never-recorded metric name creates no
entry for that name in the metric store). -/
theorem c10_queries_frame (s : ServiceState) (δ : Nat) (f : Filters)
    (u nm : String) :
    (get_event_analytics s δ f).2.events = s.events ∧
    (get_event_analytics s δ f).2.metrics = s.metrics ∧
    (get_user_analytics s δ u).2.events = s.events ∧
    (get_user_analytics s δ u).2.metrics = s.metrics ∧
    (get_metric_stats s δ nm).2.events = s.events ∧
    (get_metric_stats s δ nm).2.metrics = s.metrics := by
  rw [gea_state, gua_state, gms_state]
  exact ⟨rfl, rfl, rfl, rfl, rfl, rfl⟩

/-- C8: get_user_analytics returns the not-found status 404 exactly when the
store has no event of the user, and the success status 200 otherwise
(never a 500). -/
theorem c8_user_analytics_status (s : ServiceState) (δ : Nat) (u : String) :
    (get_user_analytics s δ u).1.statusCode =
      if s.events.filter (fun e => e.user_id == u) = [] then 404 else 200 := by
  unfold get_user_analytics
  cases h : s.events.filter (fun e => e.user_id == u) <;> simp [h]

/-- C2 counterexample: with a malformed date_from the analytics query
returns status 500, not the 400-equivalent client error the claim
states. -/
theorem c2_counterexample :
    (get_event_analytics (initState 0) 0
      ⟨none, none, some .malformed, none⟩).1.statusCode = 500 ∧
    ¬((get_event_analytics (initState 0) 0
      ⟨none, none, some .malformed, none⟩).1.statusCode = 400) := by
  decide

/-- C2 amended: a malformed date_from or date_to makes the analytics query
fail, but the failure is reported with the internal-error status 500 (the
generic exception handler), not as a 400-equivalent validation error. -/
theorem c2_malformed_date_500 (s : ServiceState) (δ : Nat) (f : Filters)
    (h : f.date_from = some .malformed ∨ f.date_to = some .malformed) :
    (get_event_analytics s δ f).1.statusCode = 500 := by
  obtain ⟨en, ui, df, dt⟩ := f
  rcases h with h | h
  · have h2 : df = some DateStr.malformed := h
    subst h2
    simp [get_event_analytics, filteredEvents, Filters.isEmpty, applyFilters,
      parseISO]
  · have h2 : dt = some DateStr.malformed := h
    subst h2
    rcases df with _ | d
    · simp [get_event_analytics, filteredEvents, Filters.isEmpty, applyFilters,
        parseISO]
    · rcases d with t | _
      · simp [get_event_analytics, filteredEvents, Filters.isEmpty, applyFilters,
          parseISO]
      · simp [get_event_analytics, filteredEvents, Filters.isEmpty, applyFilters,
          parseISO]

/-- C2 witness: the amended theorem at a concrete malformed date_to. -/
theorem c2_malformed_date_500_witness :
    (get_event_analytics (initState 0) 0
      ⟨none, none, none, some .malformed⟩).1.statusCode = 500 :=
  c2_malformed_date_500 (initState 0) 0 ⟨none, none, none, some .malformed⟩
    (Or.inr rfl)

/-- C3 counterexample: ingest only checks key presence, so an event with an
empty event_name is accepted (status 200) and stored, refuting the
non-emptiness part of the claim. -/
theorem c3_counterexample :
    (track_event (initState 0)
      ⟨some "", some "u1", none, none, none, none⟩ 0).1.statusCode = 200 ∧
    ((track_event (initState 0)
      ⟨some "", some "u1", none, none, none, none⟩ 0).2.events.map
        (fun e => e.event_name)) = [""] := by
  decide

/-- C3 amended: in every reachable store state, every stored event carries a
non-empty uuid string whose issuing counter value was fresh (ids are
strictly increasing in append order and below the current counter), and
timestamps are monotonically non-decreasing in append order; the stored
event_name and user_id are exactly the caller-supplied strings and may be
empty, since validation only checks key presence. -/
theorem c3_store_invariant (s : ServiceState) (h : Reachable s) :
    (∀ e ∈ s.events, eventIdStr e.idNum ≠ "" ∧ e.idNum < s.counter) ∧
    s.events.Pairwise (fun a b => a.idNum < b.idNum) ∧
    s.events.Pairwise (fun a b => a.timestamp ≤ b.timestamp) := by
  have hi := reachable_eventsInv s h
  exact ⟨fun e he => ⟨eventIdStr_ne_empty _, (hi.2.2 e he).1⟩, hi.1, hi.2.1⟩

/-- C3 witness: the amended invariant at the concrete one-ingest state. -/
theorem c3_store_invariant_witness :
    (∀ e ∈ demoState2.events,
      eventIdStr e.idNum ≠ "" ∧ e.idNum < demoState2.counter) ∧
    demoState2.events.Pairwise (fun a b => a.idNum < b.idNum) ∧
    demoState2.events.Pairwise (fun a b => a.timestamp ≤ b.timestamp) :=
  c3_store_invariant demoState2
    (Reachable.track (initState 0) demoTrackData 0 (Reachable.init 0))

/-- C6: a valid ingest appends exactly the event whose fields are the
caller-supplied values, with the documented defaults for omitted fields
(device_type and platform default to unknown, properties to the empty
mapping, session_id stays absent), so every supplied field is recoverable
unchanged from a subsequent read of the store. -/
theorem c6_roundtrip (s : ServiceState) (d : EventData) (δ : Nat)
    (en uid : String) (h1 : d.event_name = some en)
    (h2 : d.user_id = some uid) :
    (track_event s d δ).1 = ⟨200, .ok (eventIdStr s.counter)⟩ ∧
    (track_event s d δ).2.events = s.events ++
      [{ idNum := s.counter, event_name := en, user_id := uid,
         properties := d.properties.getD [], timestamp := s.now + δ,
         session_id := d.session_id,
         device_type := d.device_type.getD "unknown",
         platform := d.platform.getD "unknown" }] := by
  obtain ⟨den, duid, dp, dsess, ddev, dplat⟩ := d
  have h1b : den = some en := h1
  have h2b : duid = some uid := h2
  subst h1b
  subst h2b
  exact ⟨rfl, rfl⟩

/-- C6 witness: the round trip at a concrete fully-supplied input and at a
concrete input with all optional fields omitted. -/
theorem c6_roundtrip_witness :
    ((track_event (initState 3) ⟨some "page_view", some "user123",
        some [("page", "dashboard")], some "sess1", some "desktop",
        some "web"⟩ 2).1 = ⟨200, .ok (eventIdStr 0)⟩ ∧
      (track_event (initState 3) ⟨some "page_view", some "user123",
        some [("page", "dashboard")], some "sess1", some "desktop",
        some "web"⟩ 2).2.events = [] ++
        [{ idNum := 0, event_name := "page_view", user_id := "user123",
           properties := [("page", "dashboard")], timestamp := 5,
           session_id := some "sess1", device_type := "desktop",
           platform := "web" }]) ∧
    ((track_event (initState 3) ⟨some "login", some "u9",
        none, none, none, none⟩ 0).1 = ⟨200, .ok (eventIdStr 0)⟩ ∧
      (track_event (initState 3) ⟨some "login", some "u9",
        none, none, none, none⟩ 0).2.events = [] ++
        [{ idNum := 0, event_name := "login", user_id := "u9",
           properties := [], timestamp := 3, session_id := none,
           device_type := "unknown", platform := "unknown" }]) :=
  ⟨c6_roundtrip (initState 3) ⟨some "page_view", some "user123",
      some [("page", "dashboard")], some "sess1", some "desktop",
      some "web"⟩ 2 "page_view" "user123" rfl rfl,
    c6_roundtrip (initState 3) ⟨some "login", some "u9",
      none, none, none, none⟩ 0 "login" "u9" rfl rfl⟩

/-- C5: track_event and record_metric are atomic: on any validation failure
(missing event_name/user_id, missing metric_name/value, or a value float()
rejects) both stores are left exactly unchanged, and on success exactly one
record is appended to the relevant store while the other store is
untouched. -/
theorem c5_atomicity (s : ServiceState) (d : EventData) (dm : MetricData)
    (δ : Nat) :
    ((track_event s d δ).1.statusCode ≠ 200 →
      (track_event s d δ).2.events = s.events ∧
      (track_event s d δ).2.metrics = s.metrics) ∧
    ((track_event s d δ).1.statusCode = 200 →
      (∃ e, (track_event s d δ).2.events = s.events ++ [e]) ∧
      (track_event s d δ).2.metrics = s.metrics) ∧
    ((record_metric s dm δ).1.statusCode ≠ 200 →
      (record_metric s dm δ).2.events = s.events ∧
      (record_metric s dm δ).2.metrics = s.metrics) ∧
    ((record_metric s dm δ).1.statusCode = 200 →
      (record_metric s dm δ).2.events = s.events ∧
      ∃ name mt, dm.metric_name = some name ∧
        lookupDD (record_metric s dm δ).2.metrics name =
          some ((lookupDD s.metrics name).getD [] ++ [mt])) := by
  obtain ⟨den, duid, dp, dsess, ddev, dplat⟩ := d
  obtain ⟨dname, dval, dtags, dunit⟩ := dm
  refine ⟨?_, ?_, ?_, ?_⟩
  · intro h
    rcases den with _ | en
    · exact ⟨rfl, rfl⟩
    · rcases duid with _ | uid
      · exact ⟨rfl, rfl⟩
      · exact absurd rfl h
  · intro h
    rcases den with _ | en
    · simp [track_event] at h
    · rcases duid with _ | uid
      · simp [track_event] at h
      · exact ⟨⟨_, rfl⟩, rfl⟩
  · intro h
    rcases dname with _ | name
    · exact ⟨rfl, rfl⟩
    · rcases dval with _ | v
      · exact ⟨rfl, rfl⟩
      · rcases hv : pyFloatCoe v with msg | q
        · simp [record_metric, hv]
        · exact absurd (by simp [record_metric, hv]) h
  · intro h
    rcases dname with _ | name
    · simp [record_metric] at h
    · rcases dval with _ | v
      · simp [record_metric] at h
      · rcases hv : pyFloatCoe v with msg | q
        · simp [record_metric, hv] at h
        · refine ⟨by simp [record_metric, hv], name,
            { metric_name := name, value := PyNum.float q,
              timestamp := s.now + δ, tags := dtags.getD [],
              unit := dunit.getD "count" }, rfl, ?_⟩
          have hstate : (record_metric s
              ⟨some name, some v, dtags, dunit⟩ δ).2.metrics =
              ddSet (ddAccess s.metrics name).2 name
                ((ddAccess s.metrics name).1 ++
                  [{ metric_name := name, value := PyNum.float q,
                     timestamp := s.now + δ, tags := dtags.getD [],
                     unit := dunit.getD "count" }]) := by
            simp [record_metric, hv]
          rw [hstate, lookupDD_ddSet_self _ _ _ (ddAccess_snd_isSome _ _),
            ddAccess_fst_lookup]

/-- C5 witness: atomicity at concrete failing inputs (a missing event_name
and a non-numeric metric value leave the fresh store empty). -/
theorem c5_atomicity_witness :
    ((track_event (initState 0) ⟨none, some "u1", none, none, none, none⟩
        0).2.events = (initState 0).events ∧
      (track_event (initState 0) ⟨none, some "u1", none, none, none, none⟩
        0).2.metrics = (initState 0).metrics) ∧
    ((record_metric (initState 0) ⟨some "m", some .nonNumeric, none, none⟩
        0).2.events = (initState 0).events ∧
      (record_metric (initState 0) ⟨some "m", some .nonNumeric, none, none⟩
        0).2.metrics = (initState 0).metrics) :=
  ⟨(c5_atomicity (initState 0) ⟨none, some "u1", none, none, none, none⟩
      ⟨some "m", some .nonNumeric, none, none⟩ 0).1 (by decide),
    (c5_atomicity (initState 0) ⟨none, some "u1", none, none, none, none⟩
      ⟨some "m", some .nonNumeric, none, none⟩ 0).2.2.1 (by decide)⟩

/-- C7: filtering with empty criteria is the identity, and with any
criteria (well-formed dates) the result is exactly the events satisfying
the logical AND of the recognized predicates, each omitted criterion
imposing no constraint; as a List.filter of the input it preserves the
relative order and leaves the input sequence unchanged. -/
theorem c7_filter_and_semantics (events : List Event) (en ui : Option String)
    (tf tt : Option Nat) :
    applyFilters emptyFilters events = .ok events ∧
    filteredEvents emptyFilters events = .ok events ∧
    applyFilters ⟨en, ui, Option.map DateStr.valid tf,
        Option.map DateStr.valid tt⟩ events =
      .ok (events.filter (fun e =>
        matchOptStr en e.event_name && matchOptStr ui e.user_id &&
        afterOpt tf e.timestamp && beforeOpt tt e.timestamp)) :=
  ⟨rfl, rfl, applyFilters_valid_and en ui tf tt events⟩

/-- C9: aggregating an empty filtered event sequence (an empty store, or
criteria matching no event) succeeds with status 200 and yields zero
totals and empty distributions. -/
theorem c9_empty_aggregation (s : ServiceState) (δ : Nat) (f : Filters)
    (h : filteredEvents f s.events = .ok []) :
    (get_event_analytics s δ f).1 = ⟨200, .ok
      { total_events := 0, unique_users := 0, event_counts := [],
        device_distribution := [], platform_distribution := [],
        hourly_events_24h := [], filters_applied := f,
        generated_at := s.now + δ }⟩ := by
  simp [get_event_analytics, h, computeAnalytics, counterList, dedupFirst]

/-- C9 witness: the empty aggregation at a concrete empty store with a
criteria set that matches nothing. -/
theorem c9_empty_aggregation_witness :
    (get_event_analytics (initState 7) 0 ⟨some "x", none, none, none⟩).1 =
      ⟨200, .ok
        { total_events := 0, unique_users := 0, event_counts := [],
          device_distribution := [], platform_distribution := [],
          hourly_events_24h := [], filters_applied := ⟨some "x", none, none, none⟩,
          generated_at := 7 }⟩ :=
  c9_empty_aggregation (initState 7) 0 ⟨some "x", none, none, none⟩ rfl

lemma gms_ok (s : ServiceState) (δ : Nat) (name : String) (ms : List Metric)
    (hl : lookupDD s.metrics name = some ms) (v : PyNum) (vs : List PyNum)
    (hv : ms.map (fun mt => mt.value) = v :: vs) :
    (get_metric_stats s δ name).1 = ⟨200, .ok
      { metric_name := name, count := (v :: vs).length, min := pyMinNE v vs,
        max := pyMaxNE v vs, mean := meanQ ((v :: vs).map pyToRat),
        median := medianQ ((v :: vs).map pyToRat), sum := pySum (v :: vs),
        std_dev_sq := if 1 < (v :: vs).length then
          some (sampleVarQ ((v :: vs).map pyToRat)) else none,
        generated_at := s.now + δ }⟩ := by
  unfold get_metric_stats
  simp only [hl, ddAccess_of_lookup s.metrics name ms hl, hv]

/-- C1: for every recorded metric with samples, get_metric_stats succeeds
with count the number of samples, min and max the least and greatest
sample values, sum the sum of the samples, mean the arithmetic mean
(mean times count equals the sum), median the standard median, and the
square of std_dev equal to the Bessel-corrected sample variance, present
exactly when count exceeds one; in particular the samples 100..500 yield
count 5, min 100, max 500, mean 300, median 300, sum 1500 and a std_dev
squared of 25000, i.e. std_dev strictly between 158.11 and 158.12. -/
theorem c1_metric_stats :
    (∀ (s : ServiceState) (δ : Nat) (name : String) (ms : List Metric),
      lookupDD s.metrics name = some ms → ms ≠ [] →
      ∃ st, (get_metric_stats s δ name).1 = ⟨200, .ok st⟩ ∧
        st.count = ms.length ∧
        st.min ∈ ms.map (fun mt => mt.value) ∧
        (∀ v ∈ ms.map (fun mt => mt.value), pyToRat st.min ≤ pyToRat v) ∧
        st.max ∈ ms.map (fun mt => mt.value) ∧
        (∀ v ∈ ms.map (fun mt => mt.value), pyToRat v ≤ pyToRat st.max) ∧
        pyToRat st.sum = ((ms.map (fun mt => mt.value)).map pyToRat).sum ∧
        st.mean * (ms.length : ℚ) =
          ((ms.map (fun mt => mt.value)).map pyToRat).sum ∧
        st.median = medianQ ((ms.map (fun mt => mt.value)).map pyToRat) ∧
        st.std_dev_sq = (if 1 < ms.length then
          some (sampleVarQ ((ms.map (fun mt => mt.value)).map pyToRat))
          else none)) ∧
    ((get_metric_stats demoState1 0 "response_time").1 = ⟨200, .ok
      { metric_name := "response_time", count := 5, min := .float 100,
        max := .float 500, mean := 300, median := 300, sum := .float 1500,
        std_dev_sq := some 25000, generated_at := 0 }⟩ ∧
      ((15811 : ℚ) / 100) ^ 2 < 25000 ∧ (25000 : ℚ) < ((15812 : ℚ) / 100) ^ 2) := by
  constructor
  · intro s δ name ms hl hne
    rcases hv : ms.map (fun mt => mt.value) with _ | ⟨v, vs⟩
    · exact absurd (List.map_eq_nil_iff.mp hv) hne
    · refine ⟨_, gms_ok s δ name ms hl v vs hv, ?_⟩
      have hlen : (v :: vs).length = ms.length := by
        rw [← hv, List.length_map]
      refine ⟨hlen, ?_, ?_, ?_, ?_, ?_, ?_, ?_, ?_⟩
      · rw [hv]
        rcases pyMinNE_mem vs v with h | h
        · rw [h]; exact List.mem_cons_self _ _
        · exact List.mem_cons_of_mem _ h
      · intro w hw
        rw [hv] at hw
        rcases List.mem_cons.mp hw with heq | hmem
        · rw [heq]; exact (pyMinNE_le vs v).1
        · exact (pyMinNE_le vs v).2 w hmem
      · rw [hv]
        rcases pyMaxNE_mem vs v with h | h
        · rw [h]; exact List.mem_cons_self _ _
        · exact List.mem_cons_of_mem _ h
      · intro w hw
        rw [hv] at hw
        rcases List.mem_cons.mp hw with heq | hmem
        · rw [heq]; exact (pyMaxNE_ge vs v).1
        · exact (pyMaxNE_ge vs v).2 w hmem
      · rw [hv]; exact pyToRat_pySum _
      · show meanQ ((v :: vs).map pyToRat) * (ms.length : ℚ) =
          ((ms.map (fun mt => mt.value)).map pyToRat).sum
        rw [hv, ← hlen]
        unfold meanQ
        rw [List.length_map]
        rw [div_mul_cancel₀]
        exact Nat.cast_ne_zero.mpr (Nat.succ_ne_zero vs.length)
      · show medianQ ((v :: vs).map pyToRat) =
          medianQ ((ms.map (fun mt => mt.value)).map pyToRat)
        rw [hv]
      · show (if 1 < (v :: vs).length then
            some (sampleVarQ ((v :: vs).map pyToRat)) else none) =
          if 1 < ms.length then
            some (sampleVarQ ((ms.map (fun mt => mt.value)).map pyToRat))
            else none
        rw [hv, hlen]
  · constructor
    · simp only [demoState1, recStep, record_metric, initState, get_metric_stats,
        lookupDD, ddAccess, ddSet, pyFloatCoe, meanQ, medianQ, sampleVarQ, pySum,
        pyMinNE, pyMaxNE, pyToRat, pyAdd, List.insertionSort, List.orderedInsert,
        List.find?, List.map, List.foldl, List.sum_cons, List.sum_nil, List.length]
      norm_num
    · constructor <;> norm_num

/-- C1 witness: the general statistics theorem instantiated at the concrete
five-sample store. -/
theorem c1_metric_stats_witness :
    ∃ st, (get_metric_stats demoState1 0 "response_time").1 = ⟨200, .ok st⟩ ∧
      st.count = demoMetrics1.length ∧
      st.min ∈ demoMetrics1.map (fun mt => mt.value) ∧
      (∀ v ∈ demoMetrics1.map (fun mt => mt.value),
        pyToRat st.min ≤ pyToRat v) ∧
      st.max ∈ demoMetrics1.map (fun mt => mt.value) ∧
      (∀ v ∈ demoMetrics1.map (fun mt => mt.value),
        pyToRat v ≤ pyToRat st.max) ∧
      pyToRat st.sum = ((demoMetrics1.map (fun mt => mt.value)).map pyToRat).sum ∧
      st.mean * (demoMetrics1.length : ℚ) =
        ((demoMetrics1.map (fun mt => mt.value)).map pyToRat).sum ∧
      st.median = medianQ ((demoMetrics1.map (fun mt => mt.value)).map pyToRat) ∧
      st.std_dev_sq = (if 1 < demoMetrics1.length then
        some (sampleVarQ ((demoMetrics1.map (fun mt => mt.value)).map pyToRat))
        else none) :=
  c1_metric_stats.1 demoState1 0 "response_time" demoMetrics1
    (by decide) (by decide)

/-- C4 counterexample: after recording the integer samples 100..500, the
reported min is the float 100 (record_metric coerced the input with
float()), so min, max and sum are not reported as integers. -/
theorem c4_counterexample :
    ((bodyOk? (get_metric_stats demoState1 0 "response_time").1.body).map
      (fun st => (st.min, st.min.isInt, st.max.isInt, st.sum.isInt))) =
    some (PyNum.float 100, false, false, false) := by decide

/-- C4 amended: record_metric passes every value through float(), so in
every reachable state all stored samples of every metric are floats, and
get_metric_stats consequently reports min, max and sum as floats (their
numeric values are preserved, but the integer input type is not). -/
theorem c4_values_are_floats (s : ServiceState) (h : Reachable s) (δ : Nat)
    (name : String) (ms : List Metric)
    (hl : lookupDD s.metrics name = some ms) :
    (∀ mt ∈ ms, mt.value.isInt = false) ∧
    (ms ≠ [] → ∃ st, (get_metric_stats s δ name).1 = ⟨200, .ok st⟩ ∧
      st.min.isInt = false ∧ st.max.isInt = false ∧ st.sum.isInt = false) := by
  have hall : ∀ mt ∈ ms, mt.value.isInt = false := by
    have hmf := reachable_metricsAllFloat s h
    have hl2 := hl
    unfold lookupDD at hl2
    cases hf : s.metrics.find? (fun p => p.1 == name) with
    | none => rw [hf] at hl2; simp at hl2
    | some p =>
      rw [hf] at hl2
      simp at hl2
      intro mt hmt
      exact hmf p (List.mem_of_find?_eq_some hf) mt (by rw [hl2]; exact hmt)
  refine ⟨hall, ?_⟩
  intro hne
  rcases hv : ms.map (fun mt => mt.value) with _ | ⟨v, vs⟩
  · exact absurd (List.map_eq_nil_iff.mp hv) hne
  · have hvals : ∀ w ∈ v :: vs, w.isInt = false := by
      intro w hw
      rw [← hv] at hw
      rcases List.mem_map.mp hw with ⟨mt, hmt, hwe⟩
      rw [← hwe]
      exact hall mt hmt
    have hminmem : pyMinNE v vs ∈ v :: vs := by
      rcases pyMinNE_mem vs v with h2 | h2
      · rw [h2]; exact List.mem_cons_self _ _
      · exact List.mem_cons_of_mem _ h2
    have hmaxmem : pyMaxNE v vs ∈ v :: vs := by
      rcases pyMaxNE_mem vs v with h2 | h2
      · rw [h2]; exact List.mem_cons_self _ _
      · exact List.mem_cons_of_mem _ h2
    exact ⟨_, gms_ok s δ name ms hl v vs hv, hvals _ hminmem, hvals _ hmaxmem,
      pySum_isInt_false v vs (hvals v (List.mem_cons_self _ _))⟩

/-- C4 witness: the amended theorem at the concrete five-sample store. -/
theorem c4_witness :
    ∃ st, (get_metric_stats demoState1 0 "response_time").1 = ⟨200, .ok st⟩ ∧
      st.min.isInt = false ∧ st.max.isInt = false ∧ st.sum.isInt = false :=
  (c4_values_are_floats demoState1
    (Reachable.record _ _ _ (Reachable.record _ _ _ (Reachable.record _ _ _
      (Reachable.record _ _ _ (Reachable.record _ _ _ (Reachable.init 0))))))
    0 "response_time" demoMetrics1 (by decide)).2 (by decide)

